import Mathlib

/-!
Shallow embedding of the return/volatility pipeline of `main.py`
(`risk_and_returns` repository) and verification of its specification.

Polars semantics embedded here:
* a column with missing entries is `List (Option ℝ)`; arithmetic on a
  missing entry stays missing;
* `mean`/`std` aggregations skip missing entries; `std` uses `ddof = 1`
  and is missing when fewer than two non-missing values are present;
* `count` counts non-missing entries;
* integer row indexing (`df[0]`) raises on an empty frame, and
  `pl.concat([])` raises, so the corresponding Lean functions return
  `Option` results;
* `sort` orders ascending by the given keys.
-/

namespace RiskAndReturns

/-- `WEEKS_IN_A_YEAR = 52` from `main.py`. -/
def WEEKS_IN_A_YEAR : ℕ := 52

/-- A normalized weekly price record: the `(year, ticker, close)` columns of
the frame produced by `clean_historical_data`, in date order. -/
structure PriceRow where
  year : Int
  ticker : String
  close : ℝ

/-- A row of the intermediate `yearly` frame built inside
`calculate_returns_and_std` by `group_by("year").agg(...)`. -/
structure YearlyRow where
  year : Int
  yearly_log_returns : Option ℝ
  yearly_std : Option ℝ
  count : ℕ
  ticker : String

/-- A row of the final frame selected by `calculate_returns_and_std`
(and also of `construct_index`'s output). -/
structure StatRow where
  ticker : String
  year : Int
  annualized_log_returns : Option ℝ
  annualized_std : Option ℝ

/-- Polars `mean` aggregation on a column with missing entries: the mean of
the non-missing values, missing when there are none. -/
noncomputable def colMean (xs : List (Option ℝ)) : Option ℝ :=
  let vs := xs.filterMap id
  if vs.isEmpty then none else some (vs.sum / (vs.length : ℝ))

/-- Polars `std` aggregation (`ddof = 1`): the sample standard deviation of
the non-missing values, missing when fewer than two are present. -/
noncomputable def colStd (xs : List (Option ℝ)) : Option ℝ :=
  let vs := xs.filterMap id
  if vs.length < 2 then none
  else some (Real.sqrt
    ((vs.map fun x => (x - vs.sum / (vs.length : ℝ)) ^ 2).sum / ((vs.length : ℝ) - 1)))

/-- Polars `count` aggregation: the number of non-missing entries. -/
def colCount (xs : List (Option ℝ)) : ℕ :=
  (xs.filterMap id).length

/-- Mean of a list of reals (the spec's "mean of the log-returns"). -/
noncomputable def mean (l : List ℝ) : ℝ := l.sum / (l.length : ℝ)

/-- Sample standard deviation of a list of reals (the spec's
"sample standard deviation", `ddof = 1`). -/
noncomputable def sampleStd (l : List ℝ) : ℝ :=
  Real.sqrt ((l.map fun x => (x - mean l) ^ 2).sum / ((l.length : ℝ) - 1))

/-- The tail of the `log_returns` column:
`logReturnsFrom prev rows` is the column for `rows` when `prev` is the row
immediately preceding them in the series. -/
noncomputable def logReturnsFrom (prev : PriceRow) : List PriceRow → List (Option ℝ)
  | [] => []
  | r :: rs => some (Real.log (r.close / prev.close)) :: logReturnsFrom r rs

/-- The `log_returns` column added by
`with_columns(log_returns = np.log(col("close") / col("close").shift(1)))`:
missing for the first row (shift produces a missing entry there),
`log (close_i / close_(i-1))` for every later row. -/
noncomputable def logReturns : List PriceRow → List (Option ℝ)
  | [] => []
  | r :: rs => none :: logReturnsFrom r rs

/-- The frame after the `with_columns` step: each row paired with its
`log_returns` entry. -/
noncomputable def withLogReturns (rows : List PriceRow) : List (PriceRow × Option ℝ) :=
  rows.zip (logReturns rows)

/-- The distinct years of the series (the keys of `group_by("year")`). -/
def uniqueYears (rows : List PriceRow) : List Int :=
  (rows.map PriceRow.year).dedup

/-- The `log_returns` column restricted to the group of year `y`. -/
noncomputable def yearGroup (rows : List PriceRow) (y : Int) : List (Option ℝ) :=
  ((withLogReturns rows).filter fun p => p.1.year = y).map Prod.snd

/-- The defined (non-missing) log-returns of the group of year `y`: the values
over which that year's mean, standard deviation and count are taken. -/
noncomputable def groupLogReturns (rows : List PriceRow) (y : Int) : List ℝ :=
  (yearGroup rows y).filterMap id

/-- The ticker read from the first row (`df_pl.select(pl.col("ticker"))[0]`);
only used when the frame is non-empty. -/
def firstTicker : List PriceRow → String
  | [] => ""
  | r :: _ => r.ticker

/-- The `yearly` frame of `calculate_returns_and_std`:
`group_by("year").agg(mean, std, count).with_columns(ticker = ...)`. -/
noncomputable def yearlyTable (rows : List PriceRow) : List YearlyRow :=
  (uniqueYears rows).map fun y =>
    { year := y
      yearly_log_returns := colMean (yearGroup rows y)
      yearly_std := colStd (yearGroup rows y)
      count := colCount (yearGroup rows y)
      ticker := firstTicker rows }

/-- The `with_columns` annualization step followed by the final `select`:
`annualized_std = yearly_std * sqrt(WEEKS_IN_A_YEAR)` and
`annualized_log_returns = exp(yearly_log_returns * 52) - 1`,
missing entries propagating. -/
noncomputable def annualize (a : YearlyRow) : StatRow :=
  { ticker := a.ticker
    year := a.year
    annualized_log_returns := a.yearly_log_returns.map fun m => Real.exp (m * 52) - 1
    annualized_std := a.yearly_std.map fun s => s * Real.sqrt (WEEKS_IN_A_YEAR : ℝ) }

/-- The order of `.sort(pl.col("ticker"), pl.col("year"))`: by ticker,
ties broken by year. -/
def statLE (a b : StatRow) : Prop :=
  a.ticker < b.ticker ∨ (a.ticker = b.ticker ∧ a.year ≤ b.year)

instance : DecidableRel statLE := fun a b => by
  unfold statLE; infer_instance

instance : IsTotal StatRow statLE where
  total a b := by
    rcases lt_trichotomy a.ticker b.ticker with h | h | h
    · exact Or.inl (Or.inl h)
    · rcases le_total a.year b.year with h' | h'
      · exact Or.inl (Or.inr ⟨h, h'⟩)
      · exact Or.inr (Or.inr ⟨h.symm, h'⟩)
    · exact Or.inr (Or.inl h)

instance : IsTrans StatRow statLE where
  trans a b c hab hbc := by
    rcases hab with hab | ⟨hab, hab'⟩
    · rcases hbc with hbc | ⟨hbc, _⟩
      · exact Or.inl (hab.trans hbc)
      · exact Or.inl (hbc ▸ hab)
    · rcases hbc with hbc | ⟨hbc, hbc'⟩
      · exact Or.inl (hab ▸ hbc)
      · exact Or.inr ⟨hab.trans hbc, hab'.trans hbc'⟩

/-- The order of `construct_index`'s `.sort("year")`. -/
def indexLE (a b : StatRow) : Prop := a.year ≤ b.year

instance : DecidableRel indexLE := fun a b => by
  unfold indexLE; infer_instance

instance : IsTotal StatRow indexLE where
  total a b := le_total a.year b.year

instance : IsTrans StatRow indexLE where
  trans _ _ _ hab hbc := le_trans hab hbc

/-- The value computed by `calculate_returns_and_std` on a non-empty frame:
annualize each yearly row, select the output columns, sort by ticker then
year. -/
noncomputable def calculateRows (rows : List PriceRow) : List StatRow :=
  List.insertionSort statLE ((yearlyTable rows).map annualize)

/-- `calculate_returns_and_std`: on an empty frame the row indexing
`df_pl.select(pl.col("ticker"))[0]` raises (modelled as `none`); otherwise
the sorted annualized yearly statistics are returned. -/
noncomputable def calculate_returns_and_std (rows : List PriceRow) : Option (List StatRow) :=
  if rows.isEmpty then none else some (calculateRows rows)

/-- `concat_selected_tickers`, abstracted over the cleaned per-ticker series
that the network retrieval produces: run `calculate_returns_and_std` on each,
concatenate, and drop the rows of year 2025. `pl.concat` of an empty list
raises (modelled as `none`). -/
noncomputable def concat_selected_tickers (seriess : List (List PriceRow)) :
    Option (List StatRow) :=
  if seriess.isEmpty then none
  else (seriess.mapM calculate_returns_and_std).map
    fun ts => ts.flatten.filter fun r => r.year ≠ 2025

/-- The distinct years of a combined yearly-statistics frame. -/
def uniqueStatYears (t : List StatRow) : List Int :=
  (t.map StatRow.year).dedup

/-- `construct_index`: group the combined frame by year, average the two
annualized columns (missing entries skipped by `mean`), label the rows
`"INDEX"`, select the output columns and sort by year. -/
noncomputable def construct_index (t : List StatRow) : List StatRow :=
  List.insertionSort indexLE ((uniqueStatYears t).map fun y =>
    { ticker := "INDEX"
      year := y
      annualized_log_returns :=
        colMean ((t.filter fun r => r.year = y).map StatRow.annualized_log_returns)
      annualized_std :=
        colMean ((t.filter fun r => r.year = y).map StatRow.annualized_std) })

/-- A concrete two-ticker single-year statistics frame, used to exercise
`construct_index`. -/
def idxDemo : List StatRow :=
  [⟨"A", 2020, some 1, some 2⟩, ⟨"B", 2020, some 3, none⟩]

/- ### Basic lemmas -/

theorem logReturnsFrom_length (prev : PriceRow) (l : List PriceRow) :
    (logReturnsFrom prev l).length = l.length := by
  induction l generalizing prev with
  | nil => rfl
  | cons r rs ih => simp [logReturnsFrom, ih]

theorem logReturns_length (rows : List PriceRow) :
    (logReturns rows).length = rows.length := by
  cases rows with
  | nil => rfl
  | cons r rs => simp [logReturns, logReturnsFrom_length]

theorem logReturnsFrom_get :
    ∀ (l : List PriceRow) (p : PriceRow) (i : ℕ) (a b : PriceRow),
      (p :: l)[i]? = some a → l[i]? = some b →
      (logReturnsFrom p l)[i]? = some (some (Real.log (b.close / a.close)))
  | [], _, i, _, _, _, hb => by simp at hb
  | r :: rs, p, 0, a, b, ha, hb => by
      simp only [List.getElem?_cons_zero, Option.some_inj] at ha hb
      subst ha; subst hb
      simp [logReturnsFrom]
  | r :: rs, p, i + 1, a, b, ha, hb => by
      simp only [List.getElem?_cons_succ] at ha hb
      simpa only [logReturnsFrom, List.getElem?_cons_succ] using
        logReturnsFrom_get rs r i a b ha hb

theorem logReturns_succ_get (rows : List PriceRow) (i : ℕ) (a b : PriceRow)
    (ha : rows[i]? = some a) (hb : rows[i + 1]? = some b) :
    (logReturns rows)[i + 1]? = some (some (Real.log (b.close / a.close))) := by
  cases rows with
  | nil => simp at ha
  | cons r rs =>
    simp only [List.getElem?_cons_succ] at hb
    simpa only [logReturns, List.getElem?_cons_succ] using
      logReturnsFrom_get rs r i a b ha hb

theorem calculateRows_nil : calculateRows [] = [] := by
  simp [calculateRows, yearlyTable, uniqueYears]

theorem mem_calculateRows {rows : List PriceRow} {r : StatRow}
    (hr : r ∈ calculateRows rows) :
    ∃ y ∈ uniqueYears rows, r = annualize
      { year := y
        yearly_log_returns := colMean (yearGroup rows y)
        yearly_std := colStd (yearGroup rows y)
        count := colCount (yearGroup rows y)
        ticker := firstTicker rows } := by
  unfold calculateRows at hr
  rw [List.mem_insertionSort] at hr
  obtain ⟨a, ha, rfl⟩ := List.mem_map.mp hr
  unfold yearlyTable at ha
  obtain ⟨y, hy, rfl⟩ := List.mem_map.mp ha
  exact ⟨y, hy, rfl⟩

theorem colMean_of_ne_nil {xs : List (Option ℝ)} (h : xs.filterMap id ≠ []) :
    colMean xs = some (mean (xs.filterMap id)) := by
  unfold colMean mean
  rw [if_neg (by simpa using h)]

theorem colStd_of_two_le {xs : List (Option ℝ)} (h : 2 ≤ (xs.filterMap id).length) :
    colStd xs = some (sampleStd (xs.filterMap id)) := by
  unfold colStd sampleStd mean
  rw [if_neg (by omega)]

theorem colStd_of_lt_two {xs : List (Option ℝ)} (h : (xs.filterMap id).length < 2) :
    colStd xs = none := by
  unfold colStd
  rw [if_pos h]

/- ### C1 -/

/-- C1: `calculate_returns_and_std` builds the `log_returns` column with one
entry per input row; the first row's entry is missing (no prior observation),
and every later row's entry is the natural logarithm of that row's close
divided by the immediately preceding row's close. -/
theorem log_returns_spec (rows : List PriceRow) :
    (logReturns rows).length = rows.length ∧
    (rows ≠ [] → (logReturns rows)[0]? = some none) ∧
    (∀ (i : ℕ) (a b : PriceRow), rows[i]? = some a → rows[i + 1]? = some b →
      (logReturns rows)[i + 1]? = some (some (Real.log (b.close / a.close)))) := by
  refine ⟨logReturns_length rows, ?_, ?_⟩
  · intro h
    cases rows with
    | nil => exact absurd rfl h
    | cons r rs => simp [logReturns]
  · exact fun i a b ha hb => logReturns_succ_get rows i a b ha hb

/-- Witness for C1 on a concrete two-row series. -/
theorem log_returns_spec_witness :
    (logReturns [⟨2020, "T", 100⟩, ⟨2020, "T", 110⟩]).length = 2 ∧
    (logReturns [⟨2020, "T", 100⟩, ⟨2020, "T", 110⟩])[0]? = some none ∧
    (logReturns [⟨2020, "T", 100⟩, ⟨2020, "T", 110⟩])[1]? =
      some (some (Real.log ((110 : ℝ) / 100))) := by
  obtain ⟨h1, h2, h3⟩ := log_returns_spec [⟨2020, "T", 100⟩, ⟨2020, "T", 110⟩]
  exact ⟨h1, h2 (by simp), h3 0 ⟨2020, "T", 100⟩ ⟨2020, "T", 110⟩ rfl rfl⟩

/- ### C9 -/

/-- C9: `calculate_returns_and_std` requires a non-empty input frame: on an
empty frame the first-row indexing raises (modelled by `none`), and on every
non-empty frame it succeeds, returning the computed statistics. -/
theorem calc_nonempty_input (rows : List PriceRow) :
    (rows = [] → calculate_returns_and_std rows = none) ∧
    (rows ≠ [] → calculate_returns_and_std rows = some (calculateRows rows)) := by
  constructor
  · intro h; subst h; rfl
  · intro h
    unfold calculate_returns_and_std
    rw [if_neg (by simpa using h)]

/-- Witness for C9: the empty frame fails, a one-row frame succeeds. -/
theorem calc_nonempty_input_witness :
    calculate_returns_and_std [] = none ∧
    calculate_returns_and_std [⟨2020, "T", 100⟩] =
      some (calculateRows [⟨2020, "T", 100⟩]) :=
  ⟨(calc_nonempty_input []).1 rfl,
   (calc_nonempty_input [⟨2020, "T", 100⟩]).2 (by simp)⟩

/- ### C6 -/

/-- C6: the per-ticker output of `calculate_returns_and_std` is sorted
ascending by ticker first and year second, and the output of
`construct_index` is sorted ascending by year. -/
theorem output_sorted (rows : List PriceRow) (t : List StatRow) :
    (calculateRows rows).Sorted statLE ∧ (construct_index t).Sorted indexLE :=
  ⟨List.sorted_insertionSort statLE _, List.sorted_insertionSort indexLE _⟩

/- ### C4 -/

/-- C4: no row of the combined per-ticker output of
`concat_selected_tickers` has year 2025: whenever the function returns a
frame, every row of it has a year different from 2025. -/
theorem no_year_2025_in_output (seriess : List (List PriceRow)) (out : List StatRow)
    (h : concat_selected_tickers seriess = some out) (r : StatRow) (hr : r ∈ out) :
    r.year ≠ 2025 := by
  unfold concat_selected_tickers at h
  by_cases he : seriess.isEmpty
  · rw [if_pos he] at h
    exact absurd h (by simp)
  · rw [if_neg he] at h
    obtain ⟨ts, _, hout⟩ := Option.map_eq_some'.mp h
    rw [← hout] at hr
    have hmem := List.mem_filter.mp hr
    simpa using hmem.2

/-- Witness for C4 on a one-ticker, one-row input of year 2024. -/
theorem no_year_2025_in_output_witness :
    (⟨"T", 2024, none, none⟩ : StatRow).year ≠ 2025 := by
  refine no_year_2025_in_output [[⟨2024, "T", 100⟩]]
    [⟨"T", 2024, none, none⟩] ?_ ⟨"T", 2024, none, none⟩ (by simp)
  simp [concat_selected_tickers, List.mapM, List.mapM.loop,
    calculate_returns_and_std, calculateRows, yearlyTable, uniqueYears,
    yearGroup, withLogReturns, logReturns, colMean, colStd, colCount,
    annualize, firstTicker]

/- ### C5 -/

/-- C5: an output row of a yearly group with fewer than two defined
log-return observations has a missing `annualized_std` (the sample standard
deviation of the group is undefined), and the function still returns
normally rather than raising. -/
theorem few_observations_missing_std (rows : List PriceRow) (r : StatRow)
    (hr : r ∈ calculateRows rows)
    (hc : (groupLogReturns rows r.year).length < 2) :
    r.annualized_std = none ∧
    calculate_returns_and_std rows = some (calculateRows rows) := by
  obtain ⟨y, _, rfl⟩ := mem_calculateRows hr
  have hyear : (annualize
      { year := y
        yearly_log_returns := colMean (yearGroup rows y)
        yearly_std := colStd (yearGroup rows y)
        count := colCount (yearGroup rows y)
        ticker := firstTicker rows }).year = y := rfl
  rw [hyear] at hc
  constructor
  · show (colStd (yearGroup rows y)).map _ = none
    rw [colStd_of_lt_two hc]
    rfl
  · have hne : rows ≠ [] := by
      rintro rfl
      rw [calculateRows_nil] at hr
      simp at hr
    unfold calculate_returns_and_std
    rw [if_neg (by simpa using hne)]

/-- Witness for C5: a single-year two-row series has one defined log-return,
so its output row has a missing `annualized_std`. -/
theorem few_observations_missing_std_witness :
    (⟨"T", 2020, some 0, none⟩ : StatRow).annualized_std = none ∧
    calculate_returns_and_std [⟨2020, "T", 100⟩, ⟨2020, "T", 100⟩] =
      some (calculateRows [⟨2020, "T", 100⟩, ⟨2020, "T", 100⟩]) := by
  refine few_observations_missing_std [⟨2020, "T", 100⟩, ⟨2020, "T", 100⟩]
    ⟨"T", 2020, some 0, none⟩ ?_ ?_
  · simp [calculateRows, yearlyTable, uniqueYears, yearGroup, withLogReturns,
      logReturns, logReturnsFrom, colMean, colStd, colCount, annualize,
      firstTicker]
  · simp [groupLogReturns, yearGroup, withLogReturns, logReturns,
      logReturnsFrom]

/- ### C2 -/

/-- C2: an output row of `calculate_returns_and_std` for a yearly group whose
defined log-returns have mean `m` and sample standard deviation `s` (at least
two observations) carries `annualized_log_returns = exp (52 * m) - 1` and
`annualized_std = s * sqrt 52`. -/
theorem annualization_spec (rows : List PriceRow) (r : StatRow)
    (hr : r ∈ calculateRows rows)
    (h2 : 2 ≤ (groupLogReturns rows r.year).length) :
    r.annualized_log_returns =
      some (Real.exp (52 * mean (groupLogReturns rows r.year)) - 1) ∧
    r.annualized_std =
      some (sampleStd (groupLogReturns rows r.year) * Real.sqrt 52) := by
  obtain ⟨y, _, rfl⟩ := mem_calculateRows hr
  have hyear : (annualize
      { year := y
        yearly_log_returns := colMean (yearGroup rows y)
        yearly_std := colStd (yearGroup rows y)
        count := colCount (yearGroup rows y)
        ticker := firstTicker rows }).year = y := rfl
  rw [hyear] at h2 ⊢
  have hne : (yearGroup rows y).filterMap id ≠ [] := by
    intro hnil
    rw [groupLogReturns, hnil] at h2
    simp at h2
  constructor
  · show (colMean (yearGroup rows y)).map _ =
      some (Real.exp (52 * mean (groupLogReturns rows y)) - 1)
    rw [colMean_of_ne_nil hne]
    simp [groupLogReturns, mul_comm]
  · show (colStd (yearGroup rows y)).map _ =
      some (sampleStd (groupLogReturns rows y) * Real.sqrt 52)
    rw [colStd_of_two_le h2]
    simp [groupLogReturns, WEEKS_IN_A_YEAR]

/-- Witness for C2 on a three-row constant-price series (two defined
log-returns, both zero). -/
theorem annualization_spec_witness :
    (⟨"T", 2020, some 0, some 0⟩ : StatRow).annualized_log_returns =
      some (Real.exp (52 * mean (groupLogReturns
        [⟨2020, "T", 100⟩, ⟨2020, "T", 100⟩, ⟨2020, "T", 100⟩] 2020)) - 1) ∧
    (⟨"T", 2020, some 0, some 0⟩ : StatRow).annualized_std =
      some (sampleStd (groupLogReturns
        [⟨2020, "T", 100⟩, ⟨2020, "T", 100⟩, ⟨2020, "T", 100⟩] 2020) * Real.sqrt 52) := by
  refine annualization_spec [⟨2020, "T", 100⟩, ⟨2020, "T", 100⟩, ⟨2020, "T", 100⟩]
    ⟨"T", 2020, some 0, some 0⟩ ?_ ?_
  · simp [calculateRows, yearlyTable, uniqueYears, yearGroup, withLogReturns,
      logReturns, logReturnsFrom, colMean, colStd, colCount, annualize,
      firstTicker, List.insertionSort, List.orderedInsert]
  · simp [groupLogReturns, yearGroup, withLogReturns, logReturns,
      logReturnsFrom]

/- ### C10 -/

/-- C10: a row that opens a new calendar year but is not the first row of
the series has a defined log-return, computed against the close of the
immediately preceding row (the last close of the preceding year), and that
value belongs to the new year's group of defined log-returns, over which the
year's mean, standard deviation and count are computed. -/
theorem year_boundary_log_return (rows : List PriceRow) (i : ℕ) (a b : PriceRow)
    (ha : rows[i]? = some a) (hb : rows[i + 1]? = some b) (_hy : b.year ≠ a.year) :
    (logReturns rows)[i + 1]? = some (some (Real.log (b.close / a.close))) ∧
    Real.log (b.close / a.close) ∈ groupLogReturns rows b.year := by
  have hlr := logReturns_succ_get rows i a b ha hb
  refine ⟨hlr, ?_⟩
  have hpair : (withLogReturns rows)[i + 1]? =
      some (b, some (Real.log (b.close / a.close))) := by
    unfold withLogReturns
    exact List.getElem?_zip_eq_some.mpr ⟨hb, hlr⟩
  have hmem : (b, some (Real.log (b.close / a.close))) ∈ withLogReturns rows := by
    obtain ⟨hlt, hget⟩ := List.getElem?_eq_some.mp hpair
    exact hget ▸ List.getElem_mem hlt
  have hfil : (b, some (Real.log (b.close / a.close))) ∈
      (withLogReturns rows).filter fun p => p.1.year = b.year :=
    List.mem_filter.mpr ⟨hmem, by simp⟩
  exact List.mem_filterMap.mpr
    ⟨some (Real.log (b.close / a.close)),
     List.mem_map.mpr ⟨_, hfil, rfl⟩, rfl⟩

/-- Witness for C10 on a two-row series crossing from 2020 into 2021. -/
theorem year_boundary_log_return_witness :
    (logReturns [⟨2020, "T", 100⟩, ⟨2021, "T", 110⟩])[1]? =
      some (some (Real.log ((110 : ℝ) / 100))) ∧
    Real.log ((110 : ℝ) / 100) ∈
      groupLogReturns [⟨2020, "T", 100⟩, ⟨2021, "T", 110⟩] 2021 := by
  have h := year_boundary_log_return [⟨2020, "T", 100⟩, ⟨2021, "T", 110⟩] 0
    ⟨2020, "T", 100⟩ ⟨2021, "T", 110⟩ rfl rfl (by decide)
  exact h

/- ### Helpers for construct_index -/

theorem colMean_singleton (o : Option ℝ) : colMean [o] = o := by
  cases o with
  | none => simp [colMean]
  | some x => simp [colMean]

theorem mem_construct_index {t : List StatRow} {r : StatRow}
    (hr : r ∈ construct_index t) :
    ∃ y ∈ uniqueStatYears t, r =
      { ticker := "INDEX"
        year := y
        annualized_log_returns :=
          colMean ((t.filter fun s => s.year = y).map StatRow.annualized_log_returns)
        annualized_std :=
          colMean ((t.filter fun s => s.year = y).map StatRow.annualized_std) } := by
  unfold construct_index at hr
  rw [List.mem_insertionSort] at hr
  obtain ⟨y, hy, rfl⟩ := List.mem_map.mp hr
  exact ⟨y, hy, rfl⟩

theorem construct_index_years_perm (t : List StatRow) :
    ((construct_index t).map StatRow.year).Perm ((t.map StatRow.year).dedup) := by
  unfold construct_index
  refine ((List.perm_insertionSort indexLE _).map StatRow.year).trans ?_
  rw [List.map_map]
  simp [Function.comp_def, uniqueStatYears]

theorem filter_year_single {l : List StatRow} (hnd : (l.map StatRow.year).Nodup)
    {r : StatRow} (hr : r ∈ l) :
    (l.filter fun s => s.year = r.year) = [r] := by
  induction l with
  | nil => simp at hr
  | cons x xs ih =>
    rw [List.map_cons, List.nodup_cons] at hnd
    rcases List.mem_cons.mp hr with rfl | hr'
    · rw [List.filter_cons_of_pos (by simp)]
      suffices h : xs.filter (fun s => decide (s.year = r.year)) = [] by rw [h]
      rw [List.filter_eq_nil_iff]
      intro s hs
      simp only [decide_eq_true_eq]
      intro hsy
      exact hnd.1 (hsy ▸ List.mem_map_of_mem StatRow.year hs)
    · have hx : ¬ x.year = r.year := fun h =>
        hnd.1 (h ▸ List.mem_map_of_mem StatRow.year hr')
      rw [List.filter_cons_of_neg (by simpa using hx)]
      exact ih hnd.2 hr'

/- ### C3 -/

/-- C3: `construct_index` produces exactly one row per distinct year of the
combined frame (its year column is a permutation of the deduplicated input
years), and each output row carries the ticker `"INDEX"` and the unweighted
means of `annualized_log_returns` and of `annualized_std` over the input
rows of its year (missing entries skipped, never imputed as zero). -/
theorem construct_index_spec (t : List StatRow) (r : StatRow)
    (hr : r ∈ construct_index t) :
    ((construct_index t).map StatRow.year).Perm ((t.map StatRow.year).dedup) ∧
    r.ticker = "INDEX" ∧
    r.annualized_log_returns =
      colMean ((t.filter fun s => s.year = r.year).map StatRow.annualized_log_returns) ∧
    r.annualized_std =
      colMean ((t.filter fun s => s.year = r.year).map StatRow.annualized_std) := by
  obtain ⟨y, _, rfl⟩ := mem_construct_index hr
  exact ⟨construct_index_years_perm t, rfl, rfl, rfl⟩

/-- Witness for C3 on `idxDemo`: the two tickers' 2020 rows average to the
single index row `("INDEX", 2020, mean 2, mean 2)` (the missing std entry is
skipped). -/
theorem construct_index_spec_witness :
    ((construct_index idxDemo).map StatRow.year).Perm
      ((idxDemo.map StatRow.year).dedup) ∧
    (⟨"INDEX", 2020, some 2, some 2⟩ : StatRow).ticker = "INDEX" ∧
    (⟨"INDEX", 2020, some 2, some 2⟩ : StatRow).annualized_log_returns =
      colMean ((idxDemo.filter fun s => s.year = (2020 : Int)).map
        StatRow.annualized_log_returns) ∧
    (⟨"INDEX", 2020, some 2, some 2⟩ : StatRow).annualized_std =
      colMean ((idxDemo.filter fun s => s.year = (2020 : Int)).map
        StatRow.annualized_std) := by
  refine construct_index_spec idxDemo ⟨"INDEX", 2020, some 2, some 2⟩ ?_
  simp [construct_index, uniqueStatYears, idxDemo, colMean,
    List.insertionSort, List.orderedInsert]
  norm_num

/- ### C7 -/

/-- C7 counterexample: for the two-point series `[100, 110]` in one calendar
year, the output's `annualized_log_returns` column is not missing — the
annualized return of the single-observation year is defined, contradicting
the claim that it is undefined. -/
theorem two_point_series_counterexample :
    (calculateRows [⟨2020, "T", 100⟩, ⟨2020, "T", 110⟩]).map
      StatRow.annualized_log_returns ≠ [none] := by
  simp [calculateRows, yearlyTable, uniqueYears, yearGroup, withLogReturns,
    logReturns, logReturnsFrom, colMean, colStd, colCount, annualize,
    firstTicker, List.insertionSort, List.orderedInsert]

/-- C7 (amended): for the two-point series `[100, 110]` in one calendar
year, the single defined log-return equals `ln 1.1`; in the output row the
`annualized_std` is missing (the standard deviation is undefined with one
observation) while the annualized return is defined, equal to
`exp (52 * ln 1.1) - 1`. -/
theorem two_point_series_amended :
    logReturns [⟨2020, "T", 100⟩, ⟨2020, "T", 110⟩] =
      [none, some (Real.log 1.1)] ∧
    calculateRows [⟨2020, "T", 100⟩, ⟨2020, "T", 110⟩] =
      [⟨"T", 2020, some (Real.exp (52 * Real.log 1.1) - 1), none⟩] := by
  have h : (110 : ℝ) / 100 = 1.1 := by norm_num
  constructor
  · simp [logReturns, logReturnsFrom, h]
  · simp [calculateRows, yearlyTable, uniqueYears, yearGroup, withLogReturns,
      logReturns, logReturnsFrom, colMean, colStd, colCount, annualize,
      firstTicker, List.insertionSort, List.orderedInsert, h, mul_comm]

/- ### C8 -/

/-- C8: `construct_index` is idempotent — applying it to its own output
returns that output unchanged, since averaging the single `"INDEX"` row of
each year returns that row's values. -/
theorem construct_index_idempotent (t : List StatRow) :
    construct_index (construct_index t) = construct_index t := by
  set out := construct_index t with hout
  have hnd : (out.map StatRow.year).Nodup :=
    ((construct_index_years_perm t).nodup_iff).mpr (List.nodup_dedup _)
  have hsorted : out.Sorted indexLE := by
    rw [hout, construct_index]
    exact List.sorted_insertionSort indexLE _
  have huniq : uniqueStatYears out = out.map StatRow.year :=
    List.dedup_eq_self.mpr hnd
  have key : ∀ r ∈ out,
      (StatRow.mk "INDEX" r.year
        (colMean ((out.filter fun s => s.year = r.year).map
          StatRow.annualized_log_returns))
        (colMean ((out.filter fun s => s.year = r.year).map
          StatRow.annualized_std))) = r := by
    intro r hr
    rw [filter_year_single hnd hr]
    obtain ⟨y, _, hry⟩ := mem_construct_index (hout ▸ hr)
    rw [hry]
    simp [colMean_singleton]
  conv_lhs => rw [construct_index]
  rw [huniq, List.map_map]
  simp only [Function.comp_def]
  rw [List.map_congr_left fun r hr => key r hr]
  simp only [List.map_id']
  exact hsorted.insertionSort_eq

end RiskAndReturns
